import Mathlib

/-!
# Verification of the S3 transfer-manager specification (aws-sdk-go-v2)

Shallow embedding of the transfer-manager core (part planning, capped part
count, sequential streaming uploads, failure/abort handling, worker-pool
concurrency, per-call configuration snapshots, bucket-region resolution) and
of the generated service operation entry points and input validators.

The transfer-manager implementation itself is not among the provided source
files (only its documentation is), so those components are modelled from the
specification text; the generated operation entry points and the SSO input
validators are translated directly from the Go source.
-/

set_option maxRecDepth 2000

namespace AwsSdk

/-- Hard service ceiling on the number of parts in one multipart upload. -/
def maxUploadParts : Nat := 10000

/-- Ceiling division on naturals: the number of parts of size `b` needed to
cover `a` bytes. -/
def ceilDiv (a b : Nat) : Nat := (a + b - 1) / b

/-- Modelled from the spec: the PartPlanner for a source of known length
(§4.1, missing from the provided sources).  Given a part size `P` and a total
length `L`, it emits full parts of size `P` until the remainder fits in a
single (possibly smaller) final part. -/
def planParts (P : Nat) (L : Nat) : List Nat :=
  if _h0 : P = 0 then [L]
  else if _h1 : L ≤ P then [L]
  else P :: planParts P (L - P)
termination_by L
decreasing_by omega

/-- Modelled from the spec: the effective part size (§4.1, missing from the
provided sources).  If uploading at the requested size would need more than
`maxUploadParts` parts, the part size is raised to the minimal size that
respects the ceiling; otherwise the requested size is kept. -/
def effectivePartSize (L P : Nat) : Nat :=
  if maxUploadParts < ceilDiv L P then ceilDiv L maxUploadParts else P

lemma ceilDiv_le_iff (a b c : Nat) (hb : 0 < b) : ceilDiv a b ≤ c ↔ a ≤ b * c := by
  unfold ceilDiv
  rw [Nat.div_le_iff_le_mul_add_pred hb]
  omega

lemma planParts_eq_replicate (P : Nat) (hP : 0 < P) :
    ∀ L, 0 < L →
      planParts P L =
        (if L % P = 0 then List.replicate (L / P) P
         else List.replicate (L / P) P ++ [L % P]) := by
  intro L
  induction L using Nat.strong_induction_on with
  | _ L ih =>
    intro hL
    have hP0 : ¬ P = 0 := by omega
    rw [planParts]
    by_cases h1 : L ≤ P
    · rw [dif_neg hP0, dif_pos h1]
      rcases Nat.lt_or_ge L P with hlt | hge
      · have hmod : L % P = L := Nat.mod_eq_of_lt hlt
        have hdiv : L / P = 0 := Nat.div_eq_of_lt hlt
        rw [hmod, hdiv, if_neg (by omega : ¬ L = 0)]
        simp
      · have hLP : L = P := le_antisymm h1 hge
        subst hLP
        simp [Nat.mod_self, Nat.div_self hP]
    · rw [dif_neg hP0, dif_neg h1]
      have hrec := ih (L - P) (by omega) (by omega)
      have hmod : (L - P) % P = L % P := by
        conv_rhs => rw [show L = (L - P) + P by omega]
        rw [Nat.add_mod_right]
      have hdiv : (L - P) / P + 1 = L / P := by
        conv_rhs => rw [show L = (L - P) + P by omega]
        rw [Nat.add_div_right _ hP]
      rw [hrec, hmod]
      by_cases hm : L % P = 0
      · rw [if_pos hm, if_pos hm, ← hdiv, List.replicate_succ]
      · rw [if_neg hm, if_neg hm, ← hdiv, List.replicate_succ]
        rfl

lemma planParts_sum (P : Nat) (hP : 0 < P) (L : Nat) (hL : 0 < L) :
    (planParts P L).sum = L := by
  rw [planParts_eq_replicate P hP L hL]
  by_cases hm : L % P = 0
  · rw [if_pos hm, List.sum_replicate, smul_eq_mul]
    exact Nat.div_mul_cancel (Nat.dvd_of_mod_eq_zero hm)
  · rw [if_neg hm, List.sum_append, List.sum_replicate, smul_eq_mul]
    simp only [List.sum_cons, List.sum_nil, Nat.add_zero]
    exact Nat.div_add_mod' L P

/-- C1. For a known source length `L` and part size `P` with `L > P`, the
part plan sums to `L`; when `P ∣ L` every planned part has length exactly
`P`, and otherwise exactly one part — the final one, of length `L % P` — is
smaller than `P`. -/
theorem c1_part_plan_partition (L P : Nat) (hP : 0 < P) (hLP : P < L) :
    (planParts P L).sum = L ∧
    (L % P = 0 → ∀ x ∈ planParts P L, x = P) ∧
    (L % P ≠ 0 →
      ((planParts P L).filter (fun x => decide (x < P))).length = 1 ∧
      (planParts P L).getLast? = some (L % P) ∧ L % P < P) := by
  have hL : 0 < L := by omega
  refine ⟨planParts_sum P hP L hL, ?_, ?_⟩
  · intro hm x hx
    rw [planParts_eq_replicate P hP L hL, if_pos hm] at hx
    exact List.eq_of_mem_replicate hx
  · intro hm
    have hmodlt : L % P < P := Nat.mod_lt _ hP
    rw [planParts_eq_replicate P hP L hL, if_neg hm]
    refine ⟨?_, ?_, hmodlt⟩
    · rw [List.filter_append]
      have h1 : (List.replicate (L / P) P).filter (fun x => decide (x < P)) = [] := by
        apply List.filter_eq_nil_iff.mpr
        intro a ha
        have := List.eq_of_mem_replicate ha
        simp [this]
      have h2 : List.filter (fun x => decide (x < P)) [L % P] = [L % P] := by
        simp [List.filter, hmodlt]
      rw [h1, h2]
      simp
    · rw [List.getLast?_append]
      simp

/-- C2. When the requested part size `P` would need more than 10,000 parts
for a length-`L` object, the planner uses the effective part size
`P2 = effectivePartSize L P`, which is the minimal part size that is at least
`P` and keeps the part count within the 10,000 ceiling. -/
theorem c2_effective_part_size_minimal (L P : Nat) (hP : 0 < P)
    (hover : maxUploadParts < ceilDiv L P) :
    P ≤ effectivePartSize L P ∧
    ceilDiv L (effectivePartSize L P) ≤ maxUploadParts ∧
    (∀ Q, P ≤ Q → ceilDiv L Q ≤ maxUploadParts → effectivePartSize L P ≤ Q) := by
  simp only [maxUploadParts] at hover ⊢
  have heff : effectivePartSize L P = ceilDiv L 10000 := by
    unfold effectivePartSize maxUploadParts
    rw [if_pos hover]
  have hL : 10000 * P < L := by
    by_contra hc
    have h2 : ceilDiv L P ≤ 10000 := (ceilDiv_le_iff L P 10000 hP).mpr (by omega)
    omega
  have hPle : P < ceilDiv L 10000 := by
    by_contra hc
    have h2 : L ≤ 10000 * P := (ceilDiv_le_iff L 10000 P (by omega)).mp (by omega)
    omega
  refine ⟨by rw [heff]; omega, ?_, ?_⟩
  · rw [heff]
    have hCpos : 0 < ceilDiv L 10000 := by omega
    rw [ceilDiv_le_iff L _ 10000 hCpos]
    have h := Nat.div_add_mod (L + 10000 - 1) 10000
    have hmod := Nat.mod_lt (L + 10000 - 1) (show 0 < 10000 by decide)
    unfold ceilDiv
    omega
  · intro Q hPQ hQ
    rw [heff]
    have hQpos : 0 < Q := by omega
    have hLQ : L ≤ Q * 10000 := (ceilDiv_le_iff L Q 10000 hQpos).mp hQ
    exact (ceilDiv_le_iff L 10000 Q (by omega)).mpr (by omega)

/-- Witness for C1 at `L = 10`, `P = 4` (non-multiple) packaged with the
hypotheses it discharges. -/
theorem c1_part_plan_partition_witness :
    (planParts 4 10).sum = 10 ∧
    ((10 : Nat) % 4 ≠ 0 →
      ((planParts 4 10).filter (fun x => decide (x < 4))).length = 1 ∧
      (planParts 4 10).getLast? = some (10 % 4) ∧ 10 % 4 < 4) := by
  have h := c1_part_plan_partition 10 4 (by decide) (by decide)
  exact ⟨h.1, h.2.2⟩

/-- Witness for C2 at `L = 20001`, `P = 1`: the adjusted part size is minimal
among sizes meeting the 10,000-part ceiling. -/
theorem c2_effective_part_size_minimal_witness :
    1 ≤ effectivePartSize 20001 1 ∧
    ceilDiv 20001 (effectivePartSize 20001 1) ≤ maxUploadParts ∧
    (∀ Q, 1 ≤ Q → ceilDiv 20001 Q ≤ maxUploadParts → effectivePartSize 20001 1 ≤ Q) :=
  c2_effective_part_size_minimal 20001 1 (by decide) (by decide)

/-- Errors produced by remote part operations and by planning. -/
inductive TransferError
  | transport (msg : String)
  | tooManyParts
deriving DecidableEq, Repr

/-- Modelled from the spec: streaming upload of a sequential-only source
(§4.1, missing from the provided sources).  The total length is unknown in
advance, so the uploader consumes the stream `P` bytes at a time; `fuel` is
the number of parts the service ceiling still allows.  Returns the sizes of
the parts sent together with the terminal error, if any: when the ceiling is
reached while data remains, the upload stops with `tooManyParts`. -/
def seqUploadAux (P : Nat) : Nat → Nat → List Nat × Option TransferError
  | L, 0 => if L = 0 then ([], none) else ([], some .tooManyParts)
  | L, fuel+1 =>
    if L = 0 then ([], none)
    else if L ≤ P then ([L], none)
    else
      let r := seqUploadAux P (L - P) fuel
      (P :: r.1, r.2)

/-- Modelled from the spec: upload of a length-`L` sequential-only source at
part size `P` under the 10,000-part service ceiling. -/
def seqUpload (L P : Nat) : List Nat × Option TransferError :=
  seqUploadAux P L maxUploadParts

lemma ceilDiv_zero_left (b : Nat) (hb : 0 < b) : ceilDiv 0 b = 0 := by
  unfold ceilDiv
  exact Nat.div_eq_of_lt (by omega)

lemma ceilDiv_sub (L P : Nat) (hP : 0 < P) (h : P < L) :
    ceilDiv L P = ceilDiv (L - P) P + 1 := by
  unfold ceilDiv
  rw [show L + P - 1 = (L - P + P - 1) + P by omega, Nat.add_div_right _ hP]

lemma ceilDiv_eq_one (L P : Nat) (_hP : 0 < P) (h0 : 0 < L) (h : L ≤ P) :
    ceilDiv L P = 1 := by
  unfold ceilDiv
  exact Nat.div_eq_of_lt_le (by omega) (by omega)

lemma seqUploadAux_over (P : Nat) (hP : 0 < P) :
    ∀ fuel L, fuel < ceilDiv L P →
      (seqUploadAux P L fuel).2 = some TransferError.tooManyParts ∧
      ∀ x ∈ (seqUploadAux P L fuel).1, x = P := by
  intro fuel
  induction fuel with
  | zero =>
    intro L h
    have hL : ¬ L = 0 := by
      intro h0
      rw [h0, ceilDiv_zero_left P hP] at h
      omega
    rw [seqUploadAux, if_neg hL]
    exact ⟨rfl, by intro x hx; simp at hx⟩
  | succ fuel ih =>
    intro L h
    have hL0 : ¬ L = 0 := by
      intro h0
      rw [h0, ceilDiv_zero_left P hP] at h
      omega
    have hgt : ¬ L ≤ P := by
      intro hle
      rw [ceilDiv_eq_one L P hP (by omega) hle] at h
      omega
    have hsub : fuel < ceilDiv (L - P) P := by
      rw [ceilDiv_sub L P hP (by omega)] at h
      omega
    have := ih (L - P) hsub
    rw [seqUploadAux, if_neg hL0, if_neg hgt]
    refine ⟨this.1, ?_⟩
    intro x hx
    rcases List.mem_cons.mp hx with h1 | h2
    · exact h1
    · exact this.2 x h2

/-- C3. Uploading a sequential-only source that needs more than 10,000 parts
at part size `P` fails with `tooManyParts`, and every part sent before the
failure has length exactly `P` — the part size is never grown retroactively. -/
theorem c3_sequential_too_many_parts (L P : Nat) (hP : 0 < P)
    (hover : maxUploadParts < ceilDiv L P) :
    (seqUpload L P).2 = some TransferError.tooManyParts ∧
    ∀ x ∈ (seqUpload L P).1, x = P :=
  seqUploadAux_over P hP maxUploadParts L hover

/-- Witness for C3 at `L = 10001`, `P = 1`. -/
theorem c3_sequential_too_many_parts_witness :
    (seqUpload 10001 1).2 = some TransferError.tooManyParts ∧
    ∀ x ∈ (seqUpload 10001 1).1, x = 1 :=
  c3_sequential_too_many_parts 10001 1 (by decide) (by decide)

/-- Opaque per-part validator (ETag-like token) returned by `UploadPart`. -/
abbrev Validator := String

/-- Terminal errors surfaced to `Upload` callers: either a generic
transport/service error, or the multipart-specific failure carrying the
session's uploadId and the underlying cause. -/
inductive ManagerError
  | apiError (cause : TransferError)
  | multiUploadFailure (uploadId : String) (cause : TransferError)
deriving DecidableEq, Repr

/-- The `errors.As`-style accessor for `manager.MultiUploadFailure`: succeeds
exactly on the multipart failure variant, exposing uploadId and cause. -/
def asMultiUploadFailure : ManagerError → Option (String × TransferError)
  | .multiUploadFailure uid cause => some (uid, cause)
  | .apiError _ => none

/-- Remote operations issued by the upload orchestrator once the multipart
session has been initiated. -/
inductive RemoteAction
  | uploadPart (uploadId : String) (partNumber : Nat)
  | completeMultipart (uploadId : String) (validators : List (Nat × Validator))
  | abortMultipart (uploadId : String)
deriving DecidableEq, Repr

/-- First failed part result in part-number order (the pool surfaces the
first failure stably by part number, and results are kept in plan order). -/
def findFirstError : List (Except TransferError Validator) → Option TransferError
  | [] => none
  | .ok _ :: rest => findFirstError rest
  | .error e :: _ => some e

/-- Validators of the settled parts in ascending part-number order,
numbering from `n`. -/
def collectValidators : Nat → List (Except TransferError Validator) → List (Nat × Validator)
  | _, [] => []
  | n, .ok v :: rest => (n, v) :: collectValidators (n + 1) rest
  | n, .error _ :: rest => collectValidators (n + 1) rest

/-- Modelled from the spec: the finalize/abort step of the upload
orchestrator (§4.3, missing from the provided sources).  Once all part
results have settled: on all-success issue `CompleteMultipartUpload` with the
validators in ascending part order; on failure abort the session unless
`leavePartsOnError` is set, and in either case report a `multiUploadFailure`
carrying the uploadId and the first failed part's error. -/
def finishMultipart (leave : Bool) (uid : String)
    (results : List (Except TransferError Validator)) :
    List RemoteAction × Except ManagerError String :=
  match findFirstError results with
  | none => ([.completeMultipart uid (collectValidators 1 results)], .ok "location")
  | some e =>
    if leave then ([], .error (.multiUploadFailure uid e))
    else ([.abortMultipart uid], .error (.multiUploadFailure uid e))

/-- Modelled from the spec: the remote actions of a multipart upload after
initiation — one `UploadPart` per planned part, then the finalize/abort
step — paired with the call's outcome. -/
def multipartTrace (leave : Bool) (uid : String)
    (results : List (Except TransferError Validator)) :
    List RemoteAction × Except ManagerError String :=
  let f := finishMultipart leave uid results
  ((List.range results.length).map (fun i => RemoteAction.uploadPart uid (i + 1)) ++ f.1,
   f.2)

/-- Remote-service state: open multipart sessions keyed by uploadId, each
holding the part numbers uploaded so far. -/
def Remote := List (String × List Nat)

/-- Effect of one remote action on the service state: `UploadPart` records a
part under its session; `Complete` and `Abort` both discard the session (the
latter discarding its uploaded parts). -/
def applyAction (r : Remote) : RemoteAction → Remote
  | .uploadPart uid pn =>
      if (r.filter (fun s => s.1 == uid)).isEmpty then (uid, [pn]) :: r
      else r.map (fun s => if s.1 == uid then (s.1, s.2 ++ [pn]) else s)
  | .completeMultipart uid _ => r.filter (fun s => !(s.1 == uid))
  | .abortMultipart uid => r.filter (fun s => !(s.1 == uid))

def applyActions (r : Remote) (as : List RemoteAction) : Remote :=
  as.foldl applyAction r

/-- Parts the remote service retains under `uid`. -/
def sessionParts (r : Remote) (uid : String) : List Nat :=
  ((r.filter (fun s => s.1 == uid)).map Prod.snd).flatten

lemma filter_after_filter_not (r : Remote) (uid : String) :
    (r.filter (fun s => !(s.1 == uid))).filter (fun s => s.1 == uid) = [] := by
  induction r with
  | nil => rfl
  | cons a t ih =>
    by_cases h : a.1 = uid
    · simp [List.filter_cons, h, ih]
    · simp [List.filter_cons, h, ih]

lemma sessionParts_abort (r : Remote) (uid : String) :
    sessionParts (applyAction r (.abortMultipart uid)) uid = [] := by
  unfold sessionParts applyAction
  rw [filter_after_filter_not]
  rfl

/-- C4. When a multipart upload fails after the session `uid` was initiated
(some part result is an error): with `leavePartsOnError` unset the action
trace, applied to any remote state, leaves no parts under `uid` (the abort is
issued); with `leavePartsOnError` set no abort is ever issued and the
returned error surfaces the uploadId. -/
theorem c4_failed_upload_abort_policy (uid : String)
    (results : List (Except TransferError Validator)) (e : TransferError)
    (r0 : Remote) (hfail : findFirstError results = some e) :
    sessionParts (applyActions r0 (multipartTrace false uid results).1) uid = [] ∧
    (∀ a ∈ (multipartTrace true uid results).1, a ≠ RemoteAction.abortMultipart uid) ∧
    (multipartTrace true uid results).2 =
      Except.error (ManagerError.multiUploadFailure uid e) := by
  refine ⟨?_, ?_, ?_⟩
  · have htr : (multipartTrace false uid results).1 =
        (List.range results.length).map (fun i => RemoteAction.uploadPart uid (i + 1)) ++
          [RemoteAction.abortMultipart uid] := by
      unfold multipartTrace finishMultipart
      rw [hfail]
      rfl
    rw [htr]
    unfold applyActions
    rw [List.foldl_append]
    exact sessionParts_abort _ uid
  · intro a ha
    have htr : (multipartTrace true uid results).1 =
        (List.range results.length).map (fun i => RemoteAction.uploadPart uid (i + 1)) := by
      unfold multipartTrace finishMultipart
      rw [hfail]
      simp
    rw [htr] at ha
    rcases List.mem_map.mp ha with ⟨i, _, hi⟩
    intro hc
    rw [← hi] at hc
    exact RemoteAction.noConfusion hc
  · unfold multipartTrace finishMultipart
    rw [hfail]
    rfl

/-- Witness for C4: a single failing part, empty initial remote state. -/
theorem c4_failed_upload_abort_policy_witness :
    sessionParts
      (applyActions []
        (multipartTrace false "uploadA" [Except.error (TransferError.transport "boom")]).1)
      "uploadA" = [] ∧
    (∀ a ∈ (multipartTrace true "uploadA"
        [Except.error (TransferError.transport "boom")]).1,
      a ≠ RemoteAction.abortMultipart "uploadA") ∧
    (multipartTrace true "uploadA" [Except.error (TransferError.transport "boom")]).2 =
      Except.error (ManagerError.multiUploadFailure "uploadA" (TransferError.transport "boom")) :=
  c4_failed_upload_abort_policy "uploadA" [Except.error (TransferError.transport "boom")]
    (TransferError.transport "boom") [] rfl

/-- C5. An `Upload` call failing after the multipart session `uid` was
initiated returns the multipart-specific failure variant carrying the
uploadId and the underlying cause; the `errors.As`-style accessor recovers
both, and the variant is distinct from a generic transport/service error. -/
theorem c5_multipart_failure_carries_upload_id (leave : Bool) (uid : String)
    (results : List (Except TransferError Validator)) (e : TransferError)
    (hfail : findFirstError results = some e) :
    (multipartTrace leave uid results).2 =
      Except.error (ManagerError.multiUploadFailure uid e) ∧
    asMultiUploadFailure (ManagerError.multiUploadFailure uid e) = some (uid, e) ∧
    (∀ c, ManagerError.multiUploadFailure uid e ≠ ManagerError.apiError c) := by
  refine ⟨?_, rfl, ?_⟩
  · unfold multipartTrace finishMultipart
    rw [hfail]
    cases leave <;> rfl
  · intro c hc
    exact ManagerError.noConfusion hc

/-- Witness for C5: a two-part upload whose second part fails. -/
theorem c5_multipart_failure_carries_upload_id_witness :
    (multipartTrace false "uploadB"
        [Except.ok "etag1", Except.error TransferError.tooManyParts]).2 =
      Except.error (ManagerError.multiUploadFailure "uploadB" TransferError.tooManyParts) ∧
    asMultiUploadFailure
        (ManagerError.multiUploadFailure "uploadB" TransferError.tooManyParts) =
      some ("uploadB", TransferError.tooManyParts) ∧
    (∀ c, ManagerError.multiUploadFailure "uploadB" TransferError.tooManyParts ≠
      ManagerError.apiError c) :=
  c5_multipart_failure_carries_upload_id false "uploadB"
    [Except.ok "etag1", Except.error TransferError.tooManyParts]
    TransferError.tooManyParts rfl

/-- Modelled from the spec: scheduling state of the part-worker pool for one
transfer call (§4.2/§5, missing from the provided sources): jobs not yet
started, part operations currently in flight, and settled jobs. -/
structure PoolState where
  pending : Nat
  running : Nat
  settled : Nat
deriving DecidableEq, Repr

/-- Modelled from the spec: one scheduling step of the semaphore-gated pool
with per-call concurrency bound `C`: a queued job may start only while fewer
than `C` operations are in flight; any in-flight operation may settle. -/
inductive PoolStep (C : Nat) : PoolState → PoolState → Prop
  | start (s : PoolState) (hpend : 0 < s.pending) (hrun : s.running < C) :
      PoolStep C s ⟨s.pending - 1, s.running + 1, s.settled⟩
  | settle (s : PoolState) (hrun : 0 < s.running) :
      PoolStep C s ⟨s.pending, s.running - 1, s.settled + 1⟩

/-- Reflexive-transitive closure of pool scheduling steps. -/
inductive PoolReachable (C : Nat) : PoolState → PoolState → Prop
  | refl (s : PoolState) : PoolReachable C s s
  | tail {s t u : PoolState} :
      PoolReachable C s t → PoolStep C t u → PoolReachable C s u

/-- Part operations in flight summed over several independent calls. -/
def totalRunning (ss : List PoolState) : Nat := (ss.map PoolState.running).sum

lemma poolReachable_head {C : Nat} {s t u : PoolState}
    (hst : PoolStep C s t) (htu : PoolReachable C t u) : PoolReachable C s u := by
  induction htu with
  | refl => exact PoolReachable.tail (PoolReachable.refl s) hst
  | tail _ hstep ih => exact PoolReachable.tail ih hstep

lemma poolReachable_running_le (C : Nat) (s0 s : PoolState) (h0 : s0.running ≤ C)
    (h : PoolReachable C s0 s) : s.running ≤ C := by
  induction h with
  | refl => exact h0
  | tail _ hstep ih =>
    cases hstep with
    | start hpend hrun =>
      simp only
      omega
    | settle hrun =>
      simp only
      omega

lemma poolReachable_fill (C : Nat) :
    ∀ k r d, r + k ≤ C → PoolReachable C ⟨k, r, d⟩ ⟨0, r + k, d⟩ := by
  intro k
  induction k with
  | zero =>
    intro r d _
    simpa using PoolReachable.refl (⟨0, r, d⟩ : PoolState)
  | succ k ih =>
    intro r d h
    have hstep : PoolStep C ⟨k + 1, r, d⟩ ⟨k, r + 1, d⟩ := by
      have h1 := PoolStep.start (C := C) ⟨k + 1, r, d⟩ (by simp) (by simp; omega)
      simpa using h1
    have h2 := ih (r + 1) d (by omega)
    rw [show r + (k + 1) = r + 1 + k by omega]
    exact poolReachable_head hstep h2

/-- C6. The pool never has more than `C` part operations in flight during one
transfer call; the bound is per call, not global: `N` independent calls are
together bounded by `N * C`, and that total is attainable — each call can
reach a state with exactly `C` operations in flight. -/
theorem c6_concurrency_bound_per_call (C n : Nat) :
    (∀ s, PoolReachable C ⟨n, 0, 0⟩ s → s.running ≤ C) ∧
    (∀ ss : List PoolState, (∀ s ∈ ss, s.running ≤ C) →
      totalRunning ss ≤ ss.length * C) ∧
    (∀ N, ∃ ss : List PoolState, ss.length = N ∧
      (∀ s ∈ ss, PoolReachable C ⟨C, 0, 0⟩ s) ∧ totalRunning ss = N * C) := by
  refine ⟨?_, ?_, ?_⟩
  · intro s h
    exact poolReachable_running_le C ⟨n, 0, 0⟩ s (by simp) h
  · intro ss
    induction ss with
    | nil => intro _; simp [totalRunning]
    | cons a t ih =>
      intro hmem
      have h1 : a.running ≤ C := hmem a (List.mem_cons_self a t)
      have h2 := ih (fun s hs => hmem s (List.mem_cons_of_mem a hs))
      unfold totalRunning at *
      simp only [List.map_cons, List.sum_cons, List.length_cons, Nat.succ_mul]
      omega
  · intro N
    refine ⟨List.replicate N ⟨0, C, 0⟩, by simp, ?_, ?_⟩
    · intro s hs
      rw [List.eq_of_mem_replicate hs]
      have := poolReachable_fill C C 0 0 (by omega)
      simpa using this
    · unfold totalRunning
      rw [List.map_replicate, List.sum_replicate, smul_eq_mul]

/-- Witness for C6 at `C = 2`, `n = 3`: a concrete reachable state respects
the bound, and five independent calls can total ten in-flight operations. -/
theorem c6_concurrency_bound_per_call_witness :
    PoolState.running ⟨2, 1, 0⟩ ≤ 2 ∧
    (∃ ss : List PoolState, ss.length = 5 ∧
      (∀ s ∈ ss, PoolReachable 2 ⟨2, 0, 0⟩ s) ∧ totalRunning ss = 5 * 2) :=
  ⟨(c6_concurrency_bound_per_call 2 3).1 ⟨2, 1, 0⟩
      (PoolReachable.tail (PoolReachable.refl _)
        (PoolStep.start ⟨3, 0, 0⟩ (by decide) (by decide))),
   (c6_concurrency_bound_per_call 2 3).2.2 5⟩

/-- Transfer-manager configuration: part size, per-call concurrency, and the
leave-parts-on-error flag. -/
structure ManagerConfig where
  partSize : Nat
  concurrency : Nat
  leavePartsOnError : Bool
deriving DecidableEq, Repr

/-- The shared manager value holding the base (default) configuration. -/
structure Uploader where
  cfg : ManagerConfig
deriving DecidableEq, Repr

/-- Modelled from the spec: the per-call effective configuration (§4.3,
missing from the provided sources).  The call snapshots the shared defaults
and applies its functional options to the snapshot only. -/
def effectiveConfig (base : ManagerConfig)
    (opts : List (ManagerConfig → ManagerConfig)) : ManagerConfig :=
  opts.foldl (fun c f => f c) base

/-- Modelled from the spec: an `Upload` call with per-call overrides, viewed
through its configuration effects: it returns the manager state after the
call together with the configuration snapshot the call ran with. -/
def uploadCallConfig (u : Uploader)
    (opts : List (ManagerConfig → ManagerConfig)) : Uploader × ManagerConfig :=
  (u, effectiveConfig u.cfg opts)

/-- Functional option overriding the part size. -/
def setPartSize (p : Nat) (c : ManagerConfig) : ManagerConfig :=
  { c with partSize := p }

/-- C7. Per-call overrides operate on a derived snapshot: the shared default
configuration is unchanged by a call with overrides, a subsequent call
without overrides still runs with the original defaults, and the override is
visible only in the overriding call's own snapshot. -/
theorem c7_per_call_override_snapshot (u : Uploader)
    (opts : List (ManagerConfig → ManagerConfig)) (p : Nat) :
    (uploadCallConfig u opts).1 = u ∧
    (uploadCallConfig (uploadCallConfig u opts).1 []).2 = u.cfg ∧
    (uploadCallConfig u [setPartSize p]).2.partSize = p ∧
    (uploadCallConfig u [setPartSize p]).1.cfg = u.cfg :=
  ⟨rfl, rfl, rfl, rfl⟩

/-- Outcome of a single lightweight existence probe against one candidate
region. -/
inductive ProbeOutcome
  | owned
  | hint (region : String)
  | notHere
  | transport (msg : String)
deriving DecidableEq, Repr

/-- Errors from bucket-region resolution: an exhausted candidate search is
distinct from a transport failure. -/
inductive RegionError
  | bucketNotFound
  | transport (msg : String)
deriving DecidableEq, Repr

/-- Modelled from the spec: the fallback search over well-known candidate
regions (§4.5, missing from the provided sources).  Each candidate is probed
until one succeeds; a transport error is reported as-is; exhausting the set
yields `bucketNotFound`. -/
def searchRegions (probe : String → ProbeOutcome) : List String → Except RegionError String
  | [] => .error .bucketNotFound
  | r :: rest =>
    match probe r with
    | .owned => .ok r
    | .hint r2 => .ok r2
    | .transport m => .error (.transport m)
    | .notHere => searchRegions probe rest

/-- Modelled from the spec: `GetBucketRegion` (§4.5, missing from the
provided sources).  Probe the client's current region first, follow a
returned region hint, report a transport error as-is, and otherwise fall back
to the candidate-region search. -/
def getBucketRegion (probe : String → ProbeOutcome) (current : String)
    (fallbacks : List String) : Except RegionError String :=
  match probe current with
  | .owned => .ok current
  | .hint r => .ok r
  | .transport m => .error (.transport m)
  | .notHere => searchRegions probe fallbacks

lemma searchRegions_all_notHere (probe : String → ProbeOutcome) :
    ∀ rs, (∀ r ∈ rs, probe r = ProbeOutcome.notHere) →
      searchRegions probe rs = Except.error RegionError.bucketNotFound := by
  intro rs
  induction rs with
  | nil => intro _; rfl
  | cons a t ih =>
    intro h
    have ha := h a (List.mem_cons_self a t)
    simp only [searchRegions, ha]
    exact ih (fun r hr => h r (List.mem_cons_of_mem a hr))

lemma searchRegions_transport_prefix (probe : String → ProbeOutcome) :
    ∀ pre r rest m, (∀ x ∈ pre, probe x = ProbeOutcome.notHere) →
      probe r = ProbeOutcome.transport m →
      searchRegions probe (pre ++ r :: rest) =
        Except.error (RegionError.transport m) := by
  intro pre
  induction pre with
  | nil =>
    intro r rest m _ hr
    simp only [List.nil_append, searchRegions, hr]
  | cons a t ih =>
    intro r rest m hpre hr
    have ha := hpre a (List.mem_cons_self a t)
    simp only [List.cons_append, searchRegions, ha]
    exact ih r rest m (fun x hx => hpre x (List.mem_cons_of_mem a hx)) hr

lemma searchRegions_bucketNotFound (probe : String → ProbeOutcome) :
    ∀ rs, searchRegions probe rs = Except.error RegionError.bucketNotFound →
      ∀ r ∈ rs, probe r = ProbeOutcome.notHere := by
  intro rs
  induction rs with
  | nil =>
    intro _ r hr
    exact absurd hr (List.not_mem_nil r)
  | cons a t ih =>
    intro h r hr
    cases ha : probe a with
    | owned =>
      simp only [searchRegions, ha] at h
      exact Except.noConfusion h
    | hint r2 =>
      simp only [searchRegions, ha] at h
      exact Except.noConfusion h
    | transport m =>
      simp only [searchRegions, ha] at h
      exact absurd (Except.error.inj h) (fun hc => RegionError.noConfusion hc)
    | notHere =>
      simp only [searchRegions, ha] at h
      rcases List.mem_cons.mp hr with h1 | h2
      · rw [h1]; exact ha
      · exact ih h r h2

/-- C8. If no candidate region yields a successful probe, bucket-region
resolution returns `bucketNotFound`, an error distinct from every transport
error; a transport error encountered at any point while probing — at the
initial probe or anywhere in the fallback search — is reported as-is, and
`bucketNotFound` can only result from a fully exhausted search in which every
probe answered `notHere`, never from converting a transport error. -/
theorem c8_bucket_not_found_on_exhausted_search (probe : String → ProbeOutcome)
    (current : String) (fallbacks : List String) :
    (probe current = ProbeOutcome.notHere →
      (∀ r ∈ fallbacks, probe r = ProbeOutcome.notHere) →
      getBucketRegion probe current fallbacks =
        Except.error RegionError.bucketNotFound) ∧
    (∀ m, probe current = ProbeOutcome.transport m →
      getBucketRegion probe current fallbacks =
        Except.error (RegionError.transport m)) ∧
    (∀ m pre r rest, fallbacks = pre ++ r :: rest →
      probe current = ProbeOutcome.notHere →
      (∀ x ∈ pre, probe x = ProbeOutcome.notHere) →
      probe r = ProbeOutcome.transport m →
      getBucketRegion probe current fallbacks =
        Except.error (RegionError.transport m)) ∧
    (getBucketRegion probe current fallbacks =
        Except.error RegionError.bucketNotFound →
      probe current = ProbeOutcome.notHere ∧
      ∀ r ∈ fallbacks, probe r = ProbeOutcome.notHere) ∧
    (∀ m, RegionError.bucketNotFound ≠ RegionError.transport m) := by
  refine ⟨?_, ?_, ?_, ?_, ?_⟩
  · intro hcur hall
    unfold getBucketRegion
    rw [hcur]
    exact searchRegions_all_notHere probe fallbacks hall
  · intro m hcur
    unfold getBucketRegion
    rw [hcur]
  · intro m pre r rest hsplit hcur hpre hr
    unfold getBucketRegion
    rw [hcur, hsplit]
    exact searchRegions_transport_prefix probe pre r rest m hpre hr
  · intro h
    cases hcur : probe current with
    | owned => unfold getBucketRegion at h; rw [hcur] at h; exact absurd h (by simp)
    | hint r2 => unfold getBucketRegion at h; rw [hcur] at h; exact absurd h (by simp)
    | transport m =>
      unfold getBucketRegion at h
      rw [hcur] at h
      exact absurd (Except.error.inj h) (fun hc => RegionError.noConfusion hc)
    | notHere =>
      unfold getBucketRegion at h
      rw [hcur] at h
      exact ⟨rfl, searchRegions_bucketNotFound probe fallbacks h⟩
  · intro m hc
    exact RegionError.noConfusion hc

/-- Witness for C8 with concrete probe functions: a probe finding the bucket
nowhere yields `bucketNotFound`; a transport error at the initial probe is
reported as-is; and a transport error met midway through the fallback search
(after a `notHere` candidate, before an untried one) is also reported as-is,
not converted to not-found. -/
theorem c8_bucket_not_found_on_exhausted_search_witness :
    getBucketRegion (fun _ => ProbeOutcome.notHere) "us-west-2" ["us-east-1"] =
      Except.error RegionError.bucketNotFound ∧
    getBucketRegion (fun _ => ProbeOutcome.transport "reset") "us-west-2" ["us-east-1"] =
      Except.error (RegionError.transport "reset") ∧
    getBucketRegion
        (fun r => if r = "eu-west-1" then ProbeOutcome.transport "reset"
                  else ProbeOutcome.notHere)
        "us-west-2" ["us-east-1", "eu-west-1", "ap-south-1"] =
      Except.error (RegionError.transport "reset") :=
  ⟨(c8_bucket_not_found_on_exhausted_search (fun _ => ProbeOutcome.notHere)
      "us-west-2" ["us-east-1"]).1 rfl (fun _ _ => rfl),
   (c8_bucket_not_found_on_exhausted_search (fun _ => ProbeOutcome.transport "reset")
      "us-west-2" ["us-east-1"]).2.1 "reset" rfl,
   (c8_bucket_not_found_on_exhausted_search
      (fun r => if r = "eu-west-1" then ProbeOutcome.transport "reset"
                else ProbeOutcome.notHere)
      "us-west-2" ["us-east-1", "eu-west-1", "ap-south-1"]).2.2.1
     "reset" ["us-east-1"] "eu-west-1" ["ap-south-1"] rfl (by decide)
     (by intro x hx; fin_cases hx; decide) (by decide)⟩

/-- Generic operation error produced by the middleware stack
(`invokeOperation`'s error return). -/
structure OpError where
  message : String
deriving DecidableEq, Repr

/-- Opaque stand-in for pointer-to-struct payloads (`types.KeyGroupConfig`,
`types.KeyGroup`, `types.LaunchTemplate`) whose contents are irrelevant to
the entry-point contract. -/
structure OpaquePayload where
  tag : Nat
deriving DecidableEq, Repr

/-- `cloudfront.CreateKeyGroupInput` (src/unnamed/part_001): one required
pointer field. -/
structure CreateKeyGroupInput where
  keyGroupConfig : Option OpaquePayload
deriving DecidableEq, Repr

/-- `cloudfront.CreateKeyGroupOutput` (src/unnamed/part_001); the metadata
slot is written by the entry point after a successful invocation. -/
structure CreateKeyGroupOutput where
  eTag : Option String
  keyGroup : Option OpaquePayload
  location : Option String
  resultMetadata : Nat
deriving DecidableEq, Repr

/-- `ec2.DeleteLaunchTemplateInput` (src/unnamed/part_002). -/
structure DeleteLaunchTemplateInput where
  dryRun : Bool
  launchTemplateId : Option String
  launchTemplateName : Option String
deriving DecidableEq, Repr

/-- `ec2.DeleteLaunchTemplateOutput` (src/unnamed/part_002). -/
structure DeleteLaunchTemplateOutput where
  launchTemplate : Option OpaquePayload
  resultMetadata : Nat
deriving DecidableEq, Repr

/-- `chime.CreateMeetingDialOutInput`
(src/service/chime/api_op_CreateMeetingDialOut.go): four required pointer
fields. -/
structure CreateMeetingDialOutInput where
  fromPhoneNumber : Option String
  joinToken : Option String
  meetingId : Option String
  toPhoneNumber : Option String
deriving DecidableEq, Repr

/-- `chime.CreateMeetingDialOutOutput`. -/
structure CreateMeetingDialOutOutput where
  transactionId : Option String
  resultMetadata : Nat
deriving DecidableEq, Repr

/-- Go zero value of `CreateKeyGroupInput` (`&CreateKeyGroupInput{}`). -/
def zeroCreateKeyGroupInput : CreateKeyGroupInput := { keyGroupConfig := none }

/-- Go zero value of `DeleteLaunchTemplateInput`. -/
def zeroDeleteLaunchTemplateInput : DeleteLaunchTemplateInput :=
  { dryRun := false, launchTemplateId := none, launchTemplateName := none }

/-- Go zero value of `CreateMeetingDialOutInput`. -/
def zeroCreateMeetingDialOutInput : CreateMeetingDialOutInput :=
  { fromPhoneNumber := none, joinToken := none, meetingId := none,
    toPhoneNumber := none }

/-- `Client.CreateKeyGroup` (src/unnamed/part_001 lines 27-40): substitute a
fresh zero-value input for a nil `params` pointer, invoke the middleware
stack (modelled as the oracle `invoke`, which per its contract returns a
result and metadata or an error), and return nil output with the error or the
output with its metadata filled in.  The Go pair `(*Output, error)` is the
pair of options. -/
def createKeyGroup
    (invoke : CreateKeyGroupInput → Except OpError (CreateKeyGroupOutput × Nat))
    (params : Option CreateKeyGroupInput) :
    Option CreateKeyGroupOutput × Option OpError :=
  let p := match params with
    | none => zeroCreateKeyGroupInput
    | some v => v
  match invoke p with
  | .error e => (none, some e)
  | .ok (result, metadata) => (some { result with resultMetadata := metadata }, none)

/-- `Client.DeleteLaunchTemplate` (src/unnamed/part_002 lines 16-29), same
shape as `createKeyGroup`. -/
def deleteLaunchTemplate
    (invoke : DeleteLaunchTemplateInput → Except OpError (DeleteLaunchTemplateOutput × Nat))
    (params : Option DeleteLaunchTemplateInput) :
    Option DeleteLaunchTemplateOutput × Option OpError :=
  let p := match params with
    | none => zeroDeleteLaunchTemplateInput
    | some v => v
  match invoke p with
  | .error e => (none, some e)
  | .ok (result, metadata) => (some { result with resultMetadata := metadata }, none)

/-- `Client.CreateMeetingDialOut`
(src/service/chime/api_op_CreateMeetingDialOut.go lines 19-32), same shape as
`createKeyGroup`. -/
def createMeetingDialOut
    (invoke : CreateMeetingDialOutInput → Except OpError (CreateMeetingDialOutOutput × Nat))
    (params : Option CreateMeetingDialOutInput) :
    Option CreateMeetingDialOutOutput × Option OpError :=
  let p := match params with
    | none => zeroCreateMeetingDialOutInput
    | some v => v
  match invoke p with
  | .error e => (none, some e)
  | .ok (result, metadata) => (some { result with resultMetadata := metadata }, none)

/-- C9. Every generated operation entry point substitutes a fresh zero-value
input for a nil `params` pointer (calling with nil behaves exactly like
calling with the zero-value input — no nil dereference), and returns a nil
output value if and only if it returns a non-nil error. -/
theorem c9_entry_points_nil_safe :
    (∀ (invoke : CreateKeyGroupInput → Except OpError (CreateKeyGroupOutput × Nat))
        (params : Option CreateKeyGroupInput),
      createKeyGroup invoke none = createKeyGroup invoke (some zeroCreateKeyGroupInput) ∧
      ((createKeyGroup invoke params).1 = none ↔
        (createKeyGroup invoke params).2.isSome)) ∧
    (∀ (invoke : DeleteLaunchTemplateInput →
          Except OpError (DeleteLaunchTemplateOutput × Nat))
        (params : Option DeleteLaunchTemplateInput),
      deleteLaunchTemplate invoke none =
        deleteLaunchTemplate invoke (some zeroDeleteLaunchTemplateInput) ∧
      ((deleteLaunchTemplate invoke params).1 = none ↔
        (deleteLaunchTemplate invoke params).2.isSome)) ∧
    (∀ (invoke : CreateMeetingDialOutInput →
          Except OpError (CreateMeetingDialOutOutput × Nat))
        (params : Option CreateMeetingDialOutInput),
      createMeetingDialOut invoke none =
        createMeetingDialOut invoke (some zeroCreateMeetingDialOutInput) ∧
      ((createMeetingDialOut invoke params).1 = none ↔
        (createMeetingDialOut invoke params).2.isSome)) := by
  refine ⟨fun invoke params => ⟨rfl, ?_⟩, fun invoke params => ⟨rfl, ?_⟩,
    fun invoke params => ⟨rfl, ?_⟩⟩
  · rcases params with _ | v
    · rcases h : invoke zeroCreateKeyGroupInput with e | ⟨res, md⟩ <;>
        simp [createKeyGroup, h]
    · rcases h : invoke v with e | ⟨res, md⟩ <;> simp [createKeyGroup, h]
  · rcases params with _ | v
    · rcases h : invoke zeroDeleteLaunchTemplateInput with e | ⟨res, md⟩ <;>
        simp [deleteLaunchTemplate, h]
    · rcases h : invoke v with e | ⟨res, md⟩ <;> simp [deleteLaunchTemplate, h]
  · rcases params with _ | v
    · rcases h : invoke zeroCreateMeetingDialOutInput with e | ⟨res, md⟩ <;>
        simp [createMeetingDialOut, h]
    · rcases h : invoke v with e | ⟨res, md⟩ <;> simp [createMeetingDialOut, h]

/-- `smithy.InvalidParamsError` as used by the validators: a context string
and the accumulated required-parameter errors (`Add`/`Len`). -/
structure InvalidParamsError where
  context : String
  fields : List String
deriving DecidableEq, Repr

/-- `InvalidParamsError.Add(NewErrParamRequired(field))`. -/
def InvalidParamsError.addRequired (e : InvalidParamsError) (field : String) :
    InvalidParamsError :=
  { e with fields := e.fields ++ [field] }

/-- `InvalidParamsError.Len()`. -/
def InvalidParamsError.len (e : InvalidParamsError) : Nat := e.fields.length

/-- `sso.GetRoleCredentialsInput`: required pointer fields read by the
validator (the full struct lives outside the provided sources). -/
structure GetRoleCredentialsInput where
  roleName : Option String
  accessToken : Option String
  accountId : Option String
deriving DecidableEq, Repr

/-- `sso.ListAccountRolesInput`: required pointer fields read by the
validator. -/
structure ListAccountRolesInput where
  accessToken : Option String
  accountId : Option String
deriving DecidableEq, Repr

/-- `sso.ListAccountsInput`: required pointer field read by the validator. -/
structure ListAccountsInput where
  accessToken : Option String
deriving DecidableEq, Repr

/-- `sso.LogoutInput`: required pointer field read by the validator. -/
structure LogoutInput where
  accessToken : Option String
deriving DecidableEq, Repr

/-- `validateOpGetRoleCredentialsInput` (src/service/sso/validators.go lines
108-127): a nil input passes; otherwise each nil required field adds a
required-parameter error, and the error is returned iff any was added. -/
def validateOpGetRoleCredentialsInput (v : Option GetRoleCredentialsInput) :
    Option InvalidParamsError :=
  match v with
  | none => none
  | some v =>
    let ip : InvalidParamsError := { context := "GetRoleCredentialsInput", fields := [] }
    let ip := if v.roleName.isNone then ip.addRequired "RoleName" else ip
    let ip := if v.accessToken.isNone then ip.addRequired "AccessToken" else ip
    let ip := if v.accountId.isNone then ip.addRequired "AccountId" else ip
    if ip.len > 0 then some ip else none

/-- `validateOpListAccountRolesInput` (src/service/sso/validators.go lines
129-145). -/
def validateOpListAccountRolesInput (v : Option ListAccountRolesInput) :
    Option InvalidParamsError :=
  match v with
  | none => none
  | some v =>
    let ip : InvalidParamsError := { context := "ListAccountRolesInput", fields := [] }
    let ip := if v.accessToken.isNone then ip.addRequired "AccessToken" else ip
    let ip := if v.accountId.isNone then ip.addRequired "AccountId" else ip
    if ip.len > 0 then some ip else none

/-- `validateOpListAccountsInput` (src/service/sso/validators.go lines
147-160). -/
def validateOpListAccountsInput (v : Option ListAccountsInput) :
    Option InvalidParamsError :=
  match v with
  | none => none
  | some v =>
    let ip : InvalidParamsError := { context := "ListAccountsInput", fields := [] }
    let ip := if v.accessToken.isNone then ip.addRequired "AccessToken" else ip
    if ip.len > 0 then some ip else none

/-- `validateOpLogoutInput` (src/service/sso/validators.go lines 162-175). -/
def validateOpLogoutInput (v : Option LogoutInput) : Option InvalidParamsError :=
  match v with
  | none => none
  | some v =>
    let ip : InvalidParamsError := { context := "LogoutInput", fields := [] }
    let ip := if v.accessToken.isNone then ip.addRequired "AccessToken" else ip
    if ip.len > 0 then some ip else none

/-- C10. Each SSO input validator lets a nil input pass, and a non-nil input
yields an `InvalidParamsError` if and only if at least one of its required
pointer fields is nil. -/
theorem c10_sso_validators_required_fields (g : GetRoleCredentialsInput)
    (lr : ListAccountRolesInput) (la : ListAccountsInput) (lo : LogoutInput) :
    validateOpGetRoleCredentialsInput none = none ∧
    validateOpListAccountRolesInput none = none ∧
    validateOpListAccountsInput none = none ∧
    validateOpLogoutInput none = none ∧
    ((validateOpGetRoleCredentialsInput (some g)).isSome ↔
      (g.roleName = none ∨ g.accessToken = none ∨ g.accountId = none)) ∧
    ((validateOpListAccountRolesInput (some lr)).isSome ↔
      (lr.accessToken = none ∨ lr.accountId = none)) ∧
    ((validateOpListAccountsInput (some la)).isSome ↔ la.accessToken = none) ∧
    ((validateOpLogoutInput (some lo)).isSome ↔ lo.accessToken = none) := by
  refine ⟨rfl, rfl, rfl, rfl, ?_, ?_, ?_, ?_⟩
  · rcases g with ⟨a, b, c⟩
    rcases a with _ | a <;> rcases b with _ | b <;> rcases c with _ | c <;>
      simp [validateOpGetRoleCredentialsInput, InvalidParamsError.addRequired,
        InvalidParamsError.len]
  · rcases lr with ⟨b, c⟩
    rcases b with _ | b <;> rcases c with _ | c <;>
      simp [validateOpListAccountRolesInput, InvalidParamsError.addRequired,
        InvalidParamsError.len]
  · rcases la with ⟨b⟩
    rcases b with _ | b <;>
      simp [validateOpListAccountsInput, InvalidParamsError.addRequired,
        InvalidParamsError.len]
  · rcases lo with ⟨b⟩
    rcases b with _ | b <;>
      simp [validateOpLogoutInput, InvalidParamsError.addRequired,
        InvalidParamsError.len]

end AwsSdk
